import Mathlib

/-!
Shallow embedding of the job-evaluation core of the prototype
(`services/evaluation.py`, plus the `/users/{user_id}/evaluate` route of
`app/main.py`), and proofs about it.

Modelling conventions:
* Python numbers are modelled by `ℚ` (exact rationals).  `round(x, 3)` is
  modelled by `round3`; none of the concrete values appearing below is a
  half-way case, so the difference between Python's round-half-even on
  binary floats and rational round-half-up is immaterial here.
* Python `dict.get` with an optional key is modelled by `Option`;
  Python truthiness of an optional number (`a or b`) is modelled by
  `pyOrV` (both `None` and `0` fall through).
* `str.lower` is modelled by `String.toLower` (the skill/culture keywords
  involved are ASCII).
* The database is modelled by the list of persisted `JobListingRow`s; the
  duplicate-check `SELECT` inside the evaluation loop also sees the rows
  added earlier in the same loop, because the session autoflushes pending
  adds before executing a query.
-/

/-- The fields of a catalog job object (one JSON object of
`data/sample_jobs.json`) that `services/evaluation.py` reads.
`skills` models `job.get("skills", [])` (the code always supplies the `[]`
default); `culture` keeps the absent/present distinction because the
persisted `culture_tags` is `job.get("culture")` with no default. -/
structure JobRecord where
  id : Option String
  source : Option String
  title : Option String
  company : Option String
  location : Option String
  salary_min : Option ℚ
  salary_max : Option ℚ
  remote_type : Option String
  skills : List String
  culture : Option (List String)
  url : Option String
  notes : Option String
deriving DecidableEq

/-- The `"salary"` entry of a preference vector: a dict with optional
`min`/`max` values. -/
structure SalaryPref where
  min : Option ℚ
  max : Option ℚ
deriving DecidableEq

/-- The preference-vector fields that the evaluator reads.
`salary = none` models a missing, `None`, or empty (hence falsy) salary
entry; `culture` models `preferences.get("culture", [])`. -/
structure PreferenceVector where
  salary : Option SalaryPref
  culture : List String
deriving DecidableEq

/-- Embeds `EvaluationContext` of `services/evaluation.py`. -/
structure EvaluationContext where
  skills : Finset String
  preferences : PreferenceVector
deriving DecidableEq

/-- The three configuration values the evaluation path reads
(`app/config.py`). -/
structure Settings where
  evaluation_batch_size : ℤ
  evaluation_similarity_threshold : ℚ
  deviation_tolerance : ℚ
deriving DecidableEq

/-- Python's `round(q, 3)` over exact rationals (round half up). -/
def round3 (q : ℚ) : ℚ := (round (q * 1000) : ℤ) / 1000

/-- Python `a or b` for an optional number `a`: `b` when `a` is `None`
or `0` (falsy), otherwise the value of `a`. -/
def pyOrV (a : Option ℚ) (b : ℚ) : ℚ :=
  match a with
  | none => b
  | some v => if v = 0 then b else v

/-- Models `set(map(str.lower, xs))`. -/
def lowerSet (xs : List String) : Finset String :=
  (xs.map String.toLower).toFinset

/-- Models `set(map(str.lower, job.get("skills", [])))` in `_score_job`. -/
def jobSkills (job : JobRecord) : Finset String := lowerSet job.skills

/-- Models `overlap = context.skills & job_skills` in `_score_job`. -/
def overlap (ctx : EvaluationContext) (job : JobRecord) : Finset String :=
  ctx.skills ∩ jobSkills job

/-- Models `gap = job_skills - context.skills` in `_score_job`. -/
def gap (ctx : EvaluationContext) (job : JobRecord) : Finset String :=
  jobSkills job \ ctx.skills

/-- The guarded base score of `_score_job`: `0.0` when the job lists no
skills, else `len(overlap) / len(job_skills)`. -/
def base_score (ctx : EvaluationContext) (job : JobRecord) : ℚ :=
  if jobSkills job = ∅ then 0
  else ((overlap ctx job).card : ℚ) / ((jobSkills job).card : ℚ)

/-- Embeds `JobEvaluator._salary_deviation`. -/
def salary_deviation (preferences : PreferenceVector) (job : JobRecord) : ℚ :=
  match preferences.salary with
  | none => 0
  | some pref =>
    if job.salary_min = none ∧ job.salary_max = none then 1/2
    else
      let target := pyOrV pref.min (pyOrV pref.max
        (pyOrV job.salary_min (pyOrV job.salary_max 0)))
      let job_value := pyOrV job.salary_min (pyOrV job.salary_max target)
      if target = 0 then 0
      else round3 (|job_value - target| / max target 1)

/-- Embeds `JobEvaluator._culture_alignment` (`0.2 = 1/5` exactly). -/
def culture_alignment (preferences : PreferenceVector) (job : JobRecord) : ℚ :=
  let desired := lowerSet preferences.culture
  let job_culture := lowerSet (job.culture.getD [])
  if desired = ∅ ∨ job_culture = ∅ then 0
  else round3 (((desired ∩ job_culture).card : ℚ) / (desired.card : ℚ) * (1/5))

/-- Embeds `JobEvaluator._score_job`: returns `(score, deviation)`, both rounded
to three decimals (`0.05 = 1/20` exactly). -/
def score_job (ctx : EvaluationContext) (job : JobRecord) : ℚ × ℚ :=
  let score := min (base_score ctx job + culture_alignment ctx.preferences job) 1
  let deviation :=
    salary_deviation ctx.preferences job + ((gap ctx job).card : ℚ) * (1/20)
  (round3 score, round3 deviation)

/-- The columns of a persisted `JobListing` row that the evaluation path
writes or queries (`app/models.py`). -/
structure JobListingRow where
  user_id : String
  source : String
  external_id : Option String
  title : String
  company : String
  location : Option String
  salary_min : Option ℚ
  salary_max : Option ℚ
  remote_type : Option String
  culture_tags : Option (List String)
  overlap_summary : String
  gap_summary : String
  notes : Option String
  listing_url : String
  score : ℚ
  deviation : ℚ
  status : String
deriving DecidableEq

/-- Models `set(job.get("skills", []))` — the raw (not lowercased) skill set used
for the persisted overlap/gap summaries. -/
def rawSkills (job : JobRecord) : Finset String := job.skills.toFinset

/-- Models the comma join of the sorted set, as in the persisted
summaries. -/
def joinSorted (s : Finset String) : String :=
  String.intercalate (", ") (s.sort (· ≤ ·))

/-- The `JobListing(...)` constructed for an accepted job in
`evaluate_for_user`. -/
def mkListing (uid : String) (ctx : EvaluationContext) (job : JobRecord)
    (score deviation : ℚ) : JobListingRow :=
  { user_id := uid
    source := job.source.getD ("sample")
    external_id := job.id
    title := job.title.getD ("Unknown Role")
    company := job.company.getD ("Unknown")
    location := job.location
    salary_min := job.salary_min
    salary_max := job.salary_max
    remote_type := job.remote_type
    culture_tags := job.culture
    overlap_summary := joinSorted (ctx.skills ∩ rawSkills job)
    gap_summary := joinSorted (rawSkills job \ ctx.skills)
    notes := job.notes
    listing_url := job.url.getD ("")
    score := score
    deviation := deviation
    status := "queued" }

/-- Python truthiness of `job.get("id")` (modelled as an optional string):
falsy when missing or empty. -/
def idTruthy : Option String → Bool
  | none => false
  | some s => !(s == "")

/-- The duplicate-check `SELECT`: is there a `JobListing` row with this
`user_id` and `external_id`?  (`NULL`-valued `external_id` columns never
match a concrete string.) -/
def existsListing (rows : List JobListingRow) (uid : String) (ext : String) : Bool :=
  rows.any fun r => r.user_id == uid && r.external_id == some ext

/-- The skip decision for one catalog job: a truthy external id that
already exists for the user.  `pending` holds the rows added earlier in
the current loop (visible to the query through autoflush). -/
def skipJob (db : List JobListingRow) (uid : String)
    (pending : List JobListingRow) (job : JobRecord) : Bool :=
  match job.id with
  | none => false
  | some ext => if ext = "" then false else existsListing (db ++ pending) uid ext

/-- Models `deviation > tolerance or score < threshold`, the rejection test of
`evaluate_for_user`. -/
def gateFail (s : Settings) (sd : ℚ × ℚ) : Bool :=
  decide (s.deviation_tolerance < sd.2) || decide (sd.1 < s.evaluation_similarity_threshold)

/-- Models `if limit and len(matches) >= limit`: fires only when `limit` is
truthy (neither `None` nor `0`). -/
def breakNow (limit : Option ℤ) (n : ℕ) : Bool :=
  match limit with
  | none => false
  | some l => if l = 0 then false else decide ((n : ℤ) ≥ l)

/-- An evaluation trace: the accumulated `matches` list of the source
loop, plus a ghost log of every `(job, score, deviation)` triple that
reached `_score_job` (the source keeps no such log; it is recorded here
so that theorems can talk about which jobs were scored). -/
structure EvalTrace where
  matched : List JobListingRow
  scored : List (JobRecord × ℚ × ℚ)
deriving DecidableEq

/-- Outcome of one iteration of the loop body: either fall through to the
next catalog job or `break`. -/
inductive StepOut where
  | halt (t : EvalTrace)
  | next (t : EvalTrace)
deriving DecidableEq

/-- The trace carried out of a step, whichever way the step ended. -/
def StepOut.trace : StepOut → EvalTrace
  | .halt t => t
  | .next t => t

/-- One iteration of the `for index, job in enumerate(job_samples)` body:
duplicate check (`continue`), scoring, threshold gate (`continue`),
construction and persistence of the listing, and the batch-limit `break`. -/
def evalStep (s : Settings) (uid : String) (ctx : EvaluationContext)
    (db : List JobListingRow) (limit : Option ℤ) (job : JobRecord)
    (t : EvalTrace) : StepOut :=
  if skipJob db uid t.matched job then .next t
  else
    let sd := score_job ctx job
    let t1 : EvalTrace := ⟨t.matched, t.scored ++ [(job, sd)]⟩
    if gateFail s sd then .next t1
    else
      let t2 : EvalTrace := ⟨t1.matched ++ [mkListing uid ctx job sd.1 sd.2], t1.scored⟩
      if breakNow limit t2.matched.length then .halt t2 else .next t2

/-- The evaluation loop over the catalog. -/
def evalGo (s : Settings) (uid : String) (ctx : EvaluationContext)
    (db : List JobListingRow) (limit : Option ℤ) :
    List JobRecord → EvalTrace → EvalTrace
  | [], t => t
  | job :: rest, t =>
    match evalStep s uid ctx db limit job t with
    | .halt t' => t'
    | .next t' => evalGo s uid ctx db limit rest t'

/-- Embeds `JobEvaluator.evaluate_for_user`: the list of newly persisted (and
returned) `JobListing` rows, given the user's context, the already
persisted rows `db`, the loaded catalog and the `limit` argument. -/
def evaluate_for_user (s : Settings) (uid : String) (ctx : EvaluationContext)
    (db : List JobListingRow) (jobs : List JobRecord) (limit : Option ℤ) :
    List JobListingRow :=
  (evalGo s uid ctx db limit jobs ⟨[], []⟩).matched

/-- The same selection with the batch-limit `break` removed: every
non-duplicate catalog job that passes the threshold gate contributes a
row. -/
def selectAll (s : Settings) (uid : String) (ctx : EvaluationContext)
    (db : List JobListingRow) :
    List JobRecord → List JobListingRow → List JobListingRow
  | [], acc => acc
  | job :: rest, acc =>
    if skipJob db uid acc job then selectAll s uid ctx db rest acc
    else
      let sd := score_job ctx job
      if gateFail s sd then selectAll s uid ctx db rest acc
      else selectAll s uid ctx db rest (acc ++ [mkListing uid ctx job sd.1 sd.2])

/-- The state of the catalog file on disk, as `_load_job_samples` can
encounter it. -/
inductive CatalogFile where
  | missing
  | unreadable
  | readable (jobs : List JobRecord)

/-- Embeds `JobEvaluator._load_job_samples`: a missing file returns the empty
catalog; a file that exists but cannot be opened or parsed makes
`path.open` / `json.load` raise, and nothing catches the exception. -/
def load_job_samples : CatalogFile → Except String (List JobRecord)
  | .missing => .ok []
  | .unreadable => .error ("open or json.load raises; the evaluator has no handler")
  | .readable jobs => .ok jobs

/-- Models `request.max_results or settings.evaluation_batch_size`, the limit the
`/users/{user_id}/evaluate` route passes to `evaluate_for_user`;
`max_results` is a required `int` field (default `10`), so `0` is its only
falsy value, and the route never passes `None`. -/
def route_limit (max_results : ℤ) (batch : ℤ) : Option ℤ :=
  some (if max_results = 0 then batch else max_results)

/-- The row persisted for an accepted job, with its score and deviation
as `_score_job` computes them. -/
def rowOf (uid : String) (ctx : EvaluationContext) (job : JobRecord) : JobListingRow :=
  mkListing uid ctx job (score_job ctx job).1 (score_job ctx job).2

/-- First truthy value of a list of optional numbers, else the default:
the semantics of a Python `a or b or ... or d` chain. -/
def firstTruthy : List (Option ℚ) → ℚ → ℚ
  | [], d => d
  | none :: rest, d => firstTruthy rest d
  | some v :: rest, d => if v = 0 then firstTruthy rest d else v

/-- The salary-deviation rule as amended: `target` falls back through
desired min → desired max → job min → job max → 0 and `job_value` through
job min → job max → `target` (skipping falsy values), with a zero result
when `target` is `0`, and rounding to three decimals. -/
def salary_deviation_amended (p : PreferenceVector) (job : JobRecord) : ℚ :=
  match p.salary with
  | none => 0
  | some pref =>
    if job.salary_min = none ∧ job.salary_max = none then 1/2
    else
      let target := firstTruthy [pref.min, pref.max, job.salary_min, job.salary_max] 0
      let job_value := firstTruthy [job.salary_min, job.salary_max] target
      if target = 0 then 0
      else round3 (|job_value - target| / max target 1)

/-- The salary-deviation formula exactly as claim C4 words it: `target`
and `job_value` each fall back through min → max → 0, and the final
formula applies whenever the job carries any salary field. -/
def salary_deviation_claimed (p : PreferenceVector) (job : JobRecord) : ℚ :=
  match p.salary with
  | none => 0
  | some pref =>
    if job.salary_min = none ∧ job.salary_max = none then 1/2
    else
      let target := firstTruthy [pref.min, pref.max] 0
      let job_value := firstTruthy [job.salary_min, job.salary_max] 0
      round3 (|job_value - target| / max target 1)

/-- The score formula exactly as claim C3 words it: the culture bonus
`|desired ∩ job| / |desired| × 0.2` is added unrounded, and only the
final sum is rounded to three decimals. -/
def score_claimed (ctx : EvaluationContext) (job : JobRecord) : ℚ :=
  let desired := lowerSet ctx.preferences.culture
  let job_culture := lowerSet (job.culture.getD [])
  let culture_bonus :=
    if desired = ∅ ∨ job_culture = ∅ then 0
    else ((desired ∩ job_culture).card : ℚ) / (desired.card : ℚ) * (1/5)
  round3 (min (base_score ctx job + culture_bonus) 1)

/-- Concrete configuration: the defaults of `app/config.py`
(`batch 10`, `threshold 0.65`, `tolerance 1.0`). -/
def s0 : Settings := ⟨10, 65/100, 1⟩

/-- Concrete user id for the worked examples. -/
def uidDemo : String := "u"

/-- A catalog job with every optional field absent. -/
def jobBase : JobRecord :=
  { id := none, source := none, title := none, company := none,
    location := none, salary_min := none, salary_max := none,
    remote_type := none, skills := [], culture := none, url := none,
    notes := none }

/-- The spec's worked example context: skills python and sql, no culture
or salary preferences. -/
def ctx5 : EvaluationContext := ⟨{"python", "sql"}, ⟨none, []⟩⟩

/-- The spec's worked example job: skills python, sql and aws. -/
def job5 : JobRecord :=
  { jobBase with id := some ("j1"), skills := ["python", "sql", "aws"] }

/-- Context for the C3 counterexample: two skills, three desired culture
keywords. -/
def ctx3 : EvaluationContext := ⟨{"a", "b"}, ⟨none, ["x", "y", "z"]⟩⟩

/-- Job for the C3 counterexample: three skills (two overlap), one
matching culture tag. -/
def job3 : JobRecord :=
  { jobBase with skills := ["a", "b", "c"], culture := some ["x"] }

/-- Preferences with a salary preference of min 100000 (the spec's own
salary example). -/
def p4 : PreferenceVector := ⟨some ⟨some 100000, none⟩, []⟩

/-- Job for the C4 counterexample: `salary_min` present but `0` (falsy),
`salary_max` absent. -/
def job4 : JobRecord := { jobBase with salary_min := some 0 }

/-- Job of the spec's salary example: `salary_min = 150000`. -/
def job150 : JobRecord := { jobBase with salary_min := some 150000 }

/-- Job with a falsy (absent) external id, for C9. -/
def job9 : JobRecord := { jobBase with skills := ["python", "sql", "aws"] }

example : round3 (2/3) = 667/1000 := by decide!

theorem round3_mono {p q : ℚ} (h : p ≤ q) : round3 p ≤ round3 q := by
  have h2 : round (p * 1000) ≤ round (q * 1000) := by
    rw [round_eq, round_eq]
    exact Int.floor_le_floor (by linarith)
  have h3 : ((round (p * 1000) : ℤ) : ℚ) ≤ ((round (q * 1000) : ℤ) : ℚ) := by
    exact_mod_cast h2
  unfold round3
  linarith

theorem round3_nonneg {q : ℚ} (h : 0 ≤ q) : 0 ≤ round3 q := by
  have h0 : round3 0 = 0 := by decide!
  have h1 := round3_mono h
  linarith

theorem round3_le_one {q : ℚ} (h : q ≤ 1) : round3 q ≤ 1 := by
  have h0 : round3 1 = 1 := by decide!
  have h1 := round3_mono h
  linarith

theorem base_score_nonneg (ctx : EvaluationContext) (job : JobRecord) :
    0 ≤ base_score ctx job := by
  unfold base_score
  split
  · exact le_refl 0
  · positivity

theorem culture_alignment_nonneg (p : PreferenceVector) (job : JobRecord) :
    0 ≤ culture_alignment p job := by
  unfold culture_alignment
  dsimp only
  split
  · exact le_refl 0
  · exact round3_nonneg (by positivity)

theorem score_job_fst_nonneg (ctx : EvaluationContext) (job : JobRecord) :
    0 ≤ (score_job ctx job).1 := by
  unfold score_job
  dsimp only
  exact round3_nonneg
    (le_min (add_nonneg (base_score_nonneg ctx job)
      (culture_alignment_nonneg ctx.preferences job)) zero_le_one)

theorem score_job_fst_le_one (ctx : EvaluationContext) (job : JobRecord) :
    (score_job ctx job).1 ≤ 1 := by
  unfold score_job
  dsimp only
  exact round3_le_one (min_le_right _ _)

theorem gateFail_false_iff (s : Settings) (sd : ℚ × ℚ) :
    gateFail s sd = false ↔
      sd.2 ≤ s.deviation_tolerance ∧ s.evaluation_similarity_threshold ≤ sd.1 := by
  simp [gateFail, Bool.or_eq_false_iff, decide_eq_false_iff_not, not_lt]

theorem gateFail_true_iff (s : Settings) (sd : ℚ × ℚ) :
    gateFail s sd = true ↔
      s.deviation_tolerance < sd.2 ∨ sd.1 < s.evaluation_similarity_threshold := by
  simp [gateFail]

theorem existsListing_append (a b : List JobListingRow) (uid ext : String) :
    existsListing (a ++ b) uid ext =
      (existsListing a uid ext || existsListing b uid ext) := by
  simp [existsListing, List.any_append]

theorem firstTruthy_cons (x : Option ℚ) (xs : List (Option ℚ)) (d : ℚ) :
    firstTruthy (x :: xs) d = pyOrV x (firstTruthy xs d) := by
  cases x <;> simp [firstTruthy, pyOrV]

theorem salary_deviation_eq_amended (p : PreferenceVector) (job : JobRecord) :
    salary_deviation p job = salary_deviation_amended p job := by
  unfold salary_deviation salary_deviation_amended
  cases p.salary with
  | none => rfl
  | some pref => simp only [firstTruthy_cons, firstTruthy]

theorem evalGo_cons (s : Settings) (uid : String) (ctx : EvaluationContext)
    (db : List JobListingRow) (limit : Option ℤ) (job : JobRecord)
    (rest : List JobRecord) (t : EvalTrace) :
    evalGo s uid ctx db limit (job :: rest) t =
      match evalStep s uid ctx db limit job t with
      | .halt t2 => t2
      | .next t2 => evalGo s uid ctx db limit rest t2 := rfl

theorem evalStep_cases (s : Settings) (uid : String) (ctx : EvaluationContext)
    (db : List JobListingRow) (limit : Option ℤ) (job : JobRecord) (t : EvalTrace) :
    (skipJob db uid t.matched job = true ∧
      evalStep s uid ctx db limit job t = .next t) ∨
    (skipJob db uid t.matched job = false ∧ gateFail s (score_job ctx job) = true ∧
      evalStep s uid ctx db limit job t =
        .next ⟨t.matched, t.scored ++ [(job, score_job ctx job)]⟩) ∨
    (skipJob db uid t.matched job = false ∧ gateFail s (score_job ctx job) = false ∧
      ((breakNow limit (t.matched.length + 1) = true ∧
        evalStep s uid ctx db limit job t =
          .halt ⟨t.matched ++ [rowOf uid ctx job],
                 t.scored ++ [(job, score_job ctx job)]⟩) ∨
       (breakNow limit (t.matched.length + 1) = false ∧
        evalStep s uid ctx db limit job t =
          .next ⟨t.matched ++ [rowOf uid ctx job],
                 t.scored ++ [(job, score_job ctx job)]⟩))) := by
  unfold evalStep
  by_cases h1 : skipJob db uid t.matched job = true
  · exact Or.inl ⟨h1, by simp [h1]⟩
  · simp only [Bool.not_eq_true] at h1
    by_cases h2 : gateFail s (score_job ctx job) = true
    · exact Or.inr (Or.inl ⟨h1, h2, by simp [h1, h2]⟩)
    · simp only [Bool.not_eq_true] at h2
      by_cases h3 : breakNow limit (t.matched.length + 1) = true
      · exact Or.inr (Or.inr ⟨h1, h2, Or.inl ⟨h3, by simp [h1, h2, h3, rowOf]⟩⟩)
      · simp only [Bool.not_eq_true] at h3
        exact Or.inr (Or.inr ⟨h1, h2, Or.inr ⟨h3, by simp [h1, h2, h3, rowOf]⟩⟩)

theorem evalGo_sublist (s : Settings) (uid : String) (ctx : EvaluationContext)
    (db : List JobListingRow) (limit : Option ℤ) (jobs : List JobRecord) :
    ∀ t : EvalTrace, ∃ sub : List JobRecord, sub.Sublist jobs ∧
      (evalGo s uid ctx db limit jobs t).matched =
        t.matched ++ sub.map (rowOf uid ctx) := by
  induction jobs with
  | nil =>
    intro t
    exact ⟨[], List.nil_sublist _, by simp [evalGo]⟩
  | cons job rest ih =>
    intro t
    rcases evalStep_cases s uid ctx db limit job t with
      ⟨h1, heq⟩ | ⟨h1, h2, heq⟩ | ⟨h1, h2, ⟨h3, heq⟩ | ⟨h3, heq⟩⟩
    · rw [evalGo_cons, heq]
      obtain ⟨sub, hs, hm⟩ := ih t
      exact ⟨sub, hs.cons job, hm⟩
    · rw [evalGo_cons, heq]
      obtain ⟨sub, hs, hm⟩ :=
        ih ⟨t.matched, t.scored ++ [(job, score_job ctx job)]⟩
      exact ⟨sub, hs.cons job, hm⟩
    · rw [evalGo_cons, heq]
      refine ⟨[job], List.Sublist.cons₂ job (List.nil_sublist rest), ?_⟩
      simp
    · rw [evalGo_cons, heq]
      obtain ⟨sub, hs, hm⟩ :=
        ih ⟨t.matched ++ [rowOf uid ctx job], t.scored ++ [(job, score_job ctx job)]⟩
      refine ⟨job :: sub, hs.cons₂ job, ?_⟩
      simp only [List.map_cons]
      rw [hm]
      simp

theorem evalGo_matched_gate (s : Settings) (uid : String) (ctx : EvaluationContext)
    (db : List JobListingRow) (limit : Option ℤ) (jobs : List JobRecord) :
    ∀ t : EvalTrace,
      (∀ r ∈ t.matched, r.deviation ≤ s.deviation_tolerance ∧
        s.evaluation_similarity_threshold ≤ r.score) →
      ∀ r ∈ (evalGo s uid ctx db limit jobs t).matched,
        r.deviation ≤ s.deviation_tolerance ∧
          s.evaluation_similarity_threshold ≤ r.score := by
  induction jobs with
  | nil => intro t ht; simpa [evalGo] using ht
  | cons job rest ih =>
    intro t ht
    rcases evalStep_cases s uid ctx db limit job t with
      ⟨h1, heq⟩ | ⟨h1, h2, heq⟩ | ⟨h1, h2, ⟨h3, heq⟩ | ⟨h3, heq⟩⟩
    · rw [evalGo_cons, heq]; exact ih t ht
    · rw [evalGo_cons, heq]; exact ih _ ht
    · rw [evalGo_cons, heq]
      intro r hr
      rcases List.mem_append.1 hr with hr2 | hr2
      · exact ht r hr2
      · have hr3 := List.mem_singleton.1 hr2
        subst hr3
        exact (gateFail_false_iff s (score_job ctx job)).1 h2
    · rw [evalGo_cons, heq]
      refine ih _ ?_
      intro r hr
      rcases List.mem_append.1 hr with hr2 | hr2
      · exact ht r hr2
      · have hr3 := List.mem_singleton.1 hr2
        subst hr3
        exact (gateFail_false_iff s (score_job ctx job)).1 h2

theorem evalGo_scored_mem (s : Settings) (uid : String) (ctx : EvaluationContext)
    (db : List JobListingRow) (limit : Option ℤ) (jobs : List JobRecord) :
    ∀ t : EvalTrace,
      (∀ e ∈ t.scored,
        (e.2.2 ≤ s.deviation_tolerance ∧ s.evaluation_similarity_threshold ≤ e.2.1) →
        mkListing uid ctx e.1 e.2.1 e.2.2 ∈ t.matched) →
      ∀ e ∈ (evalGo s uid ctx db limit jobs t).scored,
        (e.2.2 ≤ s.deviation_tolerance ∧ s.evaluation_similarity_threshold ≤ e.2.1) →
        mkListing uid ctx e.1 e.2.1 e.2.2 ∈
          (evalGo s uid ctx db limit jobs t).matched := by
  induction jobs with
  | nil => intro t ht; simpa [evalGo] using ht
  | cons job rest ih =>
    intro t ht
    rcases evalStep_cases s uid ctx db limit job t with
      ⟨h1, heq⟩ | ⟨h1, h2, heq⟩ | ⟨h1, h2, ⟨h3, heq⟩ | ⟨h3, heq⟩⟩
    · rw [evalGo_cons, heq]; exact ih t ht
    · rw [evalGo_cons, heq]
      refine ih _ ?_
      intro e he hg
      rcases List.mem_append.1 he with he2 | he2
      · exact ht e he2 hg
      · have he3 := List.mem_singleton.1 he2
        subst he3
        rcases (gateFail_true_iff s (score_job ctx job)).1 h2 with hb | hb
        · exact absurd hg.1 (by simpa using not_le.2 hb)
        · exact absurd hg.2 (by simpa using not_le.2 hb)
    · rw [evalGo_cons, heq]
      intro e he hg
      rcases List.mem_append.1 he with he2 | he2
      · exact List.mem_append_left _ (ht e he2 hg)
      · have he3 := List.mem_singleton.1 he2
        subst he3
        exact List.mem_append_right _ (List.mem_singleton.2 rfl)
    · rw [evalGo_cons, heq]
      refine ih _ ?_
      intro e he hg
      rcases List.mem_append.1 he with he2 | he2
      · exact List.mem_append_left _ (ht e he2 hg)
      · have he3 := List.mem_singleton.1 he2
        subst he3
        exact List.mem_append_right _ (List.mem_singleton.2 rfl)

example :
    score_job ⟨{"python", "sql"}, ⟨none, []⟩⟩
      { id := some "j1", source := none, title := none, company := none,
        location := none, salary_min := none, salary_max := none,
        remote_type := none, skills := ["python", "sql", "aws"],
        culture := none, url := none, notes := none } = (667/1000, 1/20) := by
  decide!

theorem skipJob_of_dup (db : List JobListingRow) (uid : String)
    (pending : List JobListingRow) (job : JobRecord) (ext : String)
    (hid : job.id = some ext) (hne : ext ≠ "")
    (hdb : existsListing db uid ext = true) :
    skipJob db uid pending job = true := by
  unfold skipJob
  rw [hid]
  simp [hne, existsListing_append, hdb]

theorem skipJob_of_falsy (db : List JobListingRow) (uid : String)
    (pending : List JobListingRow) (job : JobRecord)
    (hid : job.id = none ∨ job.id = some "") :
    skipJob db uid pending job = false := by
  unfold skipJob
  rcases hid with h | h
  · rw [h]
  · rw [h]; simp

theorem evalGo_dup_middle (s : Settings) (uid : String) (ctx : EvaluationContext)
    (db : List JobListingRow) (limit : Option ℤ) (job : JobRecord) (ext : String)
    (hid : job.id = some ext) (hne : ext ≠ "")
    (hdb : existsListing db uid ext = true) :
    ∀ (pre post : List JobRecord) (t : EvalTrace),
      evalGo s uid ctx db limit (pre ++ job :: post) t =
        evalGo s uid ctx db limit (pre ++ post) t := by
  intro pre
  induction pre with
  | nil =>
    intro post t
    have hstep : evalStep s uid ctx db limit job t = .next t := by
      unfold evalStep
      simp [skipJob_of_dup db uid t.matched job ext hid hne hdb]
    simp only [List.nil_append]
    rw [evalGo_cons, hstep]
  | cons p ps ih =>
    intro post t
    simp only [List.cons_append]
    rw [evalGo_cons, evalGo_cons]
    cases hstep : evalStep s uid ctx db limit p t with
    | halt t2 => rfl
    | next t2 => exact ih post t2

theorem evalGo_length_le (s : Settings) (uid : String) (ctx : EvaluationContext)
    (db : List JobListingRow) (l : ℤ) (hl : l ≠ 0) (jobs : List JobRecord) :
    ∀ t : EvalTrace, (t.matched.length : ℤ) < l →
      ((evalGo s uid ctx db (some l) jobs t).matched.length : ℤ) ≤ l := by
  induction jobs with
  | nil => intro t ht; simpa [evalGo] using le_of_lt ht
  | cons job rest ih =>
    intro t ht
    rcases evalStep_cases s uid ctx db (some l) job t with
      ⟨h1, heq⟩ | ⟨h1, h2, heq⟩ | ⟨h1, h2, ⟨h3, heq⟩ | ⟨h3, heq⟩⟩
    · rw [evalGo_cons, heq]; exact ih t ht
    · rw [evalGo_cons, heq]; exact ih _ ht
    · rw [evalGo_cons, heq]
      have hle : ((t.matched ++ [rowOf uid ctx job]).length : ℤ) ≤ l := by
        simp only [List.length_append, List.length_singleton]
        push_cast
        omega
      simpa using hle
    · rw [evalGo_cons, heq]
      refine ih _ ?_
      have hb : ¬ ((((t.matched.length + 1 : ℕ)) : ℤ) ≥ l) := by
        simp only [breakNow, hl, if_false, decide_eq_false_iff_not] at h3
        exact h3
      simp only [List.length_append, List.length_singleton]
      push_cast at hb ⊢
      omega

theorem breakNow_falsy (limit : Option ℤ) (hlim : limit = none ∨ limit = some 0)
    (n : ℕ) : breakNow limit n = false := by
  rcases hlim with h | h <;> subst h <;> simp [breakNow]

theorem evalGo_nolimit (s : Settings) (uid : String) (ctx : EvaluationContext)
    (db : List JobListingRow) (limit : Option ℤ)
    (hlim : limit = none ∨ limit = some 0) (jobs : List JobRecord) :
    ∀ t : EvalTrace,
      (evalGo s uid ctx db limit jobs t).matched =
        selectAll s uid ctx db jobs t.matched := by
  induction jobs with
  | nil => intro t; simp [evalGo, selectAll]
  | cons job rest ih =>
    intro t
    rcases evalStep_cases s uid ctx db limit job t with
      ⟨h1, heq⟩ | ⟨h1, h2, heq⟩ | ⟨h1, h2, ⟨h3, heq⟩ | ⟨h3, heq⟩⟩
    · rw [evalGo_cons, heq, ih]
      simp [selectAll, h1]
    · rw [evalGo_cons, heq, ih]
      simp [selectAll, h1, h2]
    · rw [breakNow_falsy limit hlim] at h3
      cases h3
    · rw [evalGo_cons, heq, ih]
      simp [selectAll, h1, h2, rowOf]

theorem selectAll_batch (s : Settings) (b : ℤ) (uid : String)
    (ctx : EvaluationContext) (db : List JobListingRow) (jobs : List JobRecord) :
    ∀ acc : List JobListingRow,
      selectAll ⟨b, s.evaluation_similarity_threshold, s.deviation_tolerance⟩
          uid ctx db jobs acc =
        selectAll s uid ctx db jobs acc := by
  induction jobs with
  | nil => intro acc; rfl
  | cons job rest ih =>
    intro acc
    have hg : gateFail ⟨b, s.evaluation_similarity_threshold, s.deviation_tolerance⟩
        (score_job ctx job) = gateFail s (score_job ctx job) := rfl
    by_cases h1 : skipJob db uid acc job = true
    · simp [selectAll, h1, ih]
    · simp only [Bool.not_eq_true] at h1
      by_cases h2 : gateFail s (score_job ctx job) = true
      · simp [selectAll, h1, hg, h2, ih]
      · simp only [Bool.not_eq_true] at h2
        simp [selectAll, h1, hg, h2, ih]

/-- C1: a (SkillSet, PreferenceVector, JobRecord) triple that
`evaluate_for_user` scores is retained — persisted and returned — if and
only if its deviation is at most the configured `deviation_tolerance` and
its score is at least the configured `evaluation_similarity_threshold`. -/
theorem C1_retained_iff_gate (s : Settings) (uid : String)
    (ctx : EvaluationContext) (db : List JobListingRow) (jobs : List JobRecord)
    (limit : Option ℤ) (job : JobRecord) (sc dv : ℚ)
    (h : (job, sc, dv) ∈ (evalGo s uid ctx db limit jobs ⟨[], []⟩).scored) :
    mkListing uid ctx job sc dv ∈ evaluate_for_user s uid ctx db jobs limit ↔
      (dv ≤ s.deviation_tolerance ∧ s.evaluation_similarity_threshold ≤ sc) := by
  constructor
  · intro hmem
    exact evalGo_matched_gate s uid ctx db limit jobs ⟨[], []⟩ (by simp) _ hmem
  · intro hgate
    exact evalGo_scored_mem s uid ctx db limit jobs ⟨[], []⟩ (by simp)
      (job, sc, dv) h hgate

/-- Witness for C1 at the spec's worked example: the scored triple passes
the default gate and its row is returned. -/
theorem C1_witness :
    mkListing uidDemo ctx5 job5 (667/1000) (1/20) ∈
      evaluate_for_user s0 uidDemo ctx5 [] [job5] (some 10) :=
  (C1_retained_iff_gate s0 uidDemo ctx5 [] [job5] (some 10) job5 (667/1000)
    (1/20) (by decide!)).2 ⟨by decide!, by decide!⟩

/-- C2: the scorer lowercase-normalizes the job's skills and computes
`base_score = |SkillSet ∩ jobSkills| / |jobSkills|`, with base score
exactly `0` when the job lists no skills. -/
theorem C2_base_score (ctx : EvaluationContext) (job : JobRecord) :
    jobSkills job = (job.skills.map String.toLower).toFinset ∧
    (jobSkills job = ∅ ↔ job.skills = []) ∧
    (job.skills = [] → base_score ctx job = 0) ∧
    (jobSkills job ≠ ∅ →
      base_score ctx job =
        ((ctx.skills ∩ jobSkills job).card : ℚ) / ((jobSkills job).card : ℚ)) := by
  refine ⟨rfl, ?_, ?_, ?_⟩
  · simp [jobSkills, lowerSet, List.toFinset_eq_empty_iff]
  · intro h
    simp [base_score, jobSkills, lowerSet, h]
  · intro h
    simp [base_score, overlap, h]

/-- Witness for C2: the empty-skill job gets base score `0`; the worked
example gets `2/3`. -/
theorem C2_witness :
    base_score ctx5 jobBase = 0 ∧ base_score ctx5 job5 = 2/3 := by
  constructor
  · exact (C2_base_score ctx5 jobBase).2.2.1 rfl
  · have h := (C2_base_score ctx5 job5).2.2.2 (by decide!)
    rw [h]
    decide!

/-- Counterexample to C3 as stated: the code rounds the culture bonus to
three decimals before adding it, so with skills two-of-three matched and
culture one-of-three matched the emitted score is `0.734`, not the
`0.733` of the unrounded-bonus formula. -/
theorem C3_counterexample :
    (score_job ctx3 job3).1 ≠ score_claimed ctx3 job3 ∧
    (score_job ctx3 job3).1 = 734/1000 ∧ score_claimed ctx3 job3 = 733/1000 := by
  refine ⟨by decide!, by decide!, by decide!⟩

/-- C3 (amended): `score = min(base_score + culture_bonus, 1)` rounded to
three decimals, where the culture bonus `|∩|/|desired| × 0.2` is itself
rounded to three decimals before being added and is `0` whenever either
culture set is empty; the emitted score always lies in `[0, 1]`. -/
theorem C3_score_amended (ctx : EvaluationContext) (job : JobRecord) :
    (score_job ctx job).1 =
      round3 (min (base_score ctx job + culture_alignment ctx.preferences job) 1) ∧
    (lowerSet ctx.preferences.culture = ∅ ∨ lowerSet (job.culture.getD []) = ∅ →
      culture_alignment ctx.preferences job = 0) ∧
    (¬(lowerSet ctx.preferences.culture = ∅ ∨ lowerSet (job.culture.getD []) = ∅) →
      culture_alignment ctx.preferences job =
        round3 (((lowerSet ctx.preferences.culture ∩
            lowerSet (job.culture.getD [])).card : ℚ) /
          ((lowerSet ctx.preferences.culture).card : ℚ) * (1/5))) ∧
    0 ≤ (score_job ctx job).1 ∧ (score_job ctx job).1 ≤ 1 := by
  refine ⟨rfl, ?_, ?_, score_job_fst_nonneg ctx job, score_job_fst_le_one ctx job⟩
  · intro h
    simp [culture_alignment, h]
  · intro h
    simp only [culture_alignment, if_neg h]

/-- Witness for C3: empty desired culture gives bonus `0`, and the
counterexample triple's score still lies in `[0, 1]`. -/
theorem C3_witness :
    culture_alignment ctx5.preferences job5 = 0 ∧
    0 ≤ (score_job ctx3 job3).1 ∧ (score_job ctx3 job3).1 ≤ 1 :=
  ⟨(C3_score_amended ctx5 job5).2.1 (Or.inl (by decide!)),
   (C3_score_amended ctx3 job3).2.2.2.1,
   (C3_score_amended ctx3 job3).2.2.2.2⟩

/-- Counterexample to C4 as stated: with preference `min = 100000` and a
job whose `salary_min` is present but `0` (and no `salary_max`), the code
lets `job_value` fall back to `target` and returns `0`, while the claimed
min → max → 0 fallback yields `|0 − 100000| / 100000 = 1`. -/
theorem C4_counterexample :
    salary_deviation p4 job4 ≠ salary_deviation_claimed p4 job4 ∧
    salary_deviation p4 job4 = 0 ∧ salary_deviation_claimed p4 job4 = 1 := by
  refine ⟨by decide!, by decide!, by decide!⟩

/-- C4 (amended): no salary preference gives deviation `0`; a salary
preference with a job carrying neither salary field gives `0.5`;
otherwise `target` falls back through desired min → desired max → job
min → job max → 0 and `job_value` through job min → job max → `target`
(skipping falsy values), the result being `0` when `target` is `0` and
`round(|job_value − target| / max(target, 1), 3)` otherwise. -/
theorem C4_salary_amended (p : PreferenceVector) (job : JobRecord) :
    salary_deviation p job = salary_deviation_amended p job ∧
    (p.salary = none → salary_deviation p job = 0) ∧
    (∀ pref : SalaryPref, p.salary = some pref →
      job.salary_min = none ∧ job.salary_max = none →
      salary_deviation p job = 1/2) := by
  refine ⟨salary_deviation_eq_amended p job, ?_, ?_⟩
  · intro h
    simp [salary_deviation, h]
  · intro pref hp hnone
    simp [salary_deviation, hp, hnone.1, hnone.2]

/-- Witness for C4: the fixed `0.5` penalty for a job without salary
data, and the spec's own example `{min: 100000}` vs `salary_min = 150000`
giving `0.5`. -/
theorem C4_witness :
    salary_deviation p4 jobBase = 1/2 ∧ salary_deviation p4 job150 = 1/2 := by
  constructor
  · exact (C4_salary_amended p4 jobBase).2.2 ⟨some 100000, none⟩ rfl ⟨rfl, rfl⟩
  · rw [(C4_salary_amended p4 job150).1]
    decide!

/-- C5: `deviation = salary_deviation + 0.05 × |gap|` rounded to three
decimals, with the gap taken after lowercase normalization; on the worked
example the overlap is python and sql, the gap is aws, the score `0.667`
and the deviation `0.05`. -/
theorem C5_deviation_formula :
    (∀ (ctx : EvaluationContext) (job : JobRecord),
      (score_job ctx job).2 =
        round3 (salary_deviation ctx.preferences job +
          ((gap ctx job).card : ℚ) * (1/20)) ∧
      gap ctx job = (job.skills.map String.toLower).toFinset \ ctx.skills) ∧
    overlap ctx5 job5 = {"python", "sql"} ∧
    gap ctx5 job5 = {"aws"} ∧
    score_job ctx5 job5 = (667/1000, 1/20) := by
  refine ⟨fun ctx job => ⟨rfl, rfl⟩, by decide!, by decide!, by decide!⟩

/-- C6: a catalog job whose truthy external id already exists as a
listing of the same user is skipped before scoring: the whole trace —
scored log and persisted matches — is as if the job were absent from the
catalog, and no error is raised. -/
theorem C6_duplicate_skipped (s : Settings) (uid : String)
    (ctx : EvaluationContext) (db : List JobListingRow) (limit : Option ℤ)
    (pre post : List JobRecord) (job : JobRecord) (ext : String)
    (hid : job.id = some ext) (hne : ext ≠ "")
    (hdb : existsListing db uid ext = true) :
    evalGo s uid ctx db limit (pre ++ job :: post) ⟨[], []⟩ =
      evalGo s uid ctx db limit (pre ++ post) ⟨[], []⟩ ∧
    evaluate_for_user s uid ctx db (pre ++ job :: post) limit =
      evaluate_for_user s uid ctx db (pre ++ post) limit := by
  have h := evalGo_dup_middle s uid ctx db limit job ext hid hne hdb pre post ⟨[], []⟩
  exact ⟨h, by unfold evaluate_for_user; rw [h]⟩

/-- Witness for C6: with the worked-example row already persisted, the
one-job catalog evaluates exactly like the empty catalog. -/
theorem C6_witness :
    evaluate_for_user s0 uidDemo ctx5 [rowOf uidDemo ctx5 job5] [job5] (some 10) =
      evaluate_for_user s0 uidDemo ctx5 [rowOf uidDemo ctx5 job5] [] (some 10) :=
  (C6_duplicate_skipped s0 uidDemo ctx5 [rowOf uidDemo ctx5 job5] (some 10)
    [] [] job5 ("j1") rfl (by decide!) (by decide!)).2

/-- Counterexample to C7 as stated: a catalog file that exists but cannot
be read or parsed is not treated as an empty catalog — the exception
propagates. -/
theorem C7_counterexample :
    load_job_samples CatalogFile.unreadable ≠ Except.ok [] := by
  simp [load_job_samples]

/-- C7 (amended): a missing catalog file is treated as an empty catalog —
no matches are produced and no error is raised; only a file that exists
but cannot be read or parsed raises. -/
theorem C7_missing_catalog :
    load_job_samples CatalogFile.missing = Except.ok [] ∧
    ∀ (s : Settings) (uid : String) (ctx : EvaluationContext)
      (db : List JobListingRow) (limit : Option ℤ),
      evaluate_for_user s uid ctx db [] limit = [] :=
  ⟨rfl, fun _ _ _ _ _ => rfl⟩

/-- C8: the returned sequence of matches lists the accepted jobs in the
catalog's discovery order (it is a map over a sublist of the catalog),
and with a truthy positive limit it never contains more elements than
that limit. -/
theorem C8_order_and_limit (s : Settings) (uid : String)
    (ctx : EvaluationContext) (db : List JobListingRow) (jobs : List JobRecord)
    (limit : Option ℤ) :
    (∃ sub : List JobRecord, sub.Sublist jobs ∧
      evaluate_for_user s uid ctx db jobs limit = sub.map (rowOf uid ctx)) ∧
    (∀ l : ℤ, limit = some l → 0 < l →
      ((evaluate_for_user s uid ctx db jobs limit).length : ℤ) ≤ l) := by
  constructor
  · obtain ⟨sub, hs, hm⟩ := evalGo_sublist s uid ctx db limit jobs ⟨[], []⟩
    exact ⟨sub, hs, by simpa using hm⟩
  · intro l hl hpos
    subst hl
    exact evalGo_length_le s uid ctx db l (by omega) jobs ⟨[], []⟩
      (by simpa using hpos)

/-- Witness for C8: a two-job catalog with limit `1` returns at most one
match. -/
theorem C8_witness :
    ((evaluate_for_user s0 uidDemo ctx5 [] [job5, job9] (some 1)).length : ℤ) ≤ 1 :=
  (C8_order_and_limit s0 uidDemo ctx5 [] [job5, job9] (some 1)).2 1 rfl
    (by decide!)

/-- C9: a catalog entry with an absent or empty (falsy) id undergoes no
duplicate check at all; it is scored on every run, and when it passes the
gate a fresh listing row is persisted and returned even when an identical
row already sits in the database. -/
theorem C9_falsy_id (s : Settings) (uid : String) (ctx : EvaluationContext)
    (db : List JobListingRow) (limit : Option ℤ) (job : JobRecord)
    (hid : job.id = none ∨ job.id = some "") :
    (∀ pending, skipJob db uid pending job = false) ∧
    (job, score_job ctx job) ∈ (evalGo s uid ctx db limit [job] ⟨[], []⟩).scored ∧
    (gateFail s (score_job ctx job) = false →
      evaluate_for_user s uid ctx db [job] limit = [rowOf uid ctx job]) := by
  have hskip : ∀ pending, skipJob db uid pending job = false :=
    fun pending => skipJob_of_falsy db uid pending job hid
  refine ⟨hskip, ?_, ?_⟩
  · rcases evalStep_cases s uid ctx db limit job ⟨[], []⟩ with
      ⟨h1, heq⟩ | ⟨h1, h2, heq⟩ | ⟨h1, h2, ⟨h3, heq⟩ | ⟨h3, heq⟩⟩
    · rw [hskip] at h1; cases h1
    · rw [evalGo_cons, heq]; simp [evalGo]
    · rw [evalGo_cons, heq]; simp
    · rw [evalGo_cons, heq]; simp [evalGo]
  · intro hg
    rcases evalStep_cases s uid ctx db limit job ⟨[], []⟩ with
      ⟨h1, heq⟩ | ⟨h1, h2, heq⟩ | ⟨h1, h2, ⟨h3, heq⟩ | ⟨h3, heq⟩⟩
    · rw [hskip] at h1; cases h1
    · rw [hg] at h2; cases h2
    · unfold evaluate_for_user
      rw [evalGo_cons, heq]
      simp
    · unfold evaluate_for_user
      rw [evalGo_cons, heq]
      simp [evalGo]

/-- Witness for C9: with an identical listing already persisted, the
id-less job is still scored and a duplicate row is returned. -/
theorem C9_witness :
    evaluate_for_user s0 uidDemo ctx5 [rowOf uidDemo ctx5 job9] [job9] (some 10) =
      [rowOf uidDemo ctx5 job9] :=
  (C9_falsy_id s0 uidDemo ctx5 [rowOf uidDemo ctx5 job9] (some 10) job9
    (Or.inl rfl)).2.2 (by decide!)

/-- C10: with limit `None` or `0` the truncation check never fires —
the result is the full untruncated selection, independently of
`evaluation_batch_size` — while the route substitutes the configured
default exactly when `max_results` is `0` (its only falsy value) and
otherwise passes `max_results` through. -/
theorem C10_limit_falsy (s : Settings) (uid : String) (ctx : EvaluationContext)
    (db : List JobListingRow) (jobs : List JobRecord) (limit : Option ℤ) :
    (limit = none ∨ limit = some 0 →
      evaluate_for_user s uid ctx db jobs limit = selectAll s uid ctx db jobs []) ∧
    (∀ b : ℤ, limit = none ∨ limit = some 0 →
      evaluate_for_user ⟨b, s.evaluation_similarity_threshold, s.deviation_tolerance⟩
          uid ctx db jobs limit =
        evaluate_for_user s uid ctx db jobs limit) ∧
    (∀ b : ℤ, route_limit 0 b = some b) ∧
    (∀ mr b : ℤ, mr ≠ 0 → route_limit mr b = some mr) := by
  have hmain : ∀ s2 : Settings, limit = none ∨ limit = some 0 →
      evaluate_for_user s2 uid ctx db jobs limit = selectAll s2 uid ctx db jobs [] :=
    fun s2 hlim => evalGo_nolimit s2 uid ctx db limit hlim jobs ⟨[], []⟩
  refine ⟨hmain s, ?_, fun b => by simp [route_limit],
    fun mr b hmr => by simp [route_limit, hmr]⟩
  intro b hlim
  rw [hmain _ hlim, hmain s hlim, selectAll_batch]

/-- Witness for C10: with limit `None`, a two-job catalog returns the
full untruncated selection. -/
theorem C10_witness :
    evaluate_for_user s0 uidDemo ctx5 [] [job5, job9] none =
      selectAll s0 uidDemo ctx5 [] [job5, job9] [] :=
  (C10_limit_falsy s0 uidDemo ctx5 [] [job5, job9] none).1 (Or.inl rfl)
